import Mathlib

/-!
Shallow embedding of the "student-notes-api" Express server
(src/student-notes-api/server.js and the unnamed duplicate src/unnamed/part_000,
which implement the same handlers line for line).

Modelling conventions:
* JSON / JavaScript values appearing in request bodies and in the persisted
  file are modelled by `JsVal`; a missing object field (JS `undefined` after
  destructuring) is `Option.none`.
* JavaScript numbers are modelled as integers (`Int`); `NaN` is modelled as
  `Option.none` where it can arise (`jsToNumber`, `parseIntJS`, the raw
  `nextId` counter).  Non-integer floats, exponent/hex string-number literal
  forms beyond `0x`, and `Number(...)` of singleton arrays of booleans are
  outside the model; no claim depends on them.
* Timestamps (`new Date().toISOString()`) are opaque clock values supplied to
  each handler as a `now : Nat` parameter.
* The persisted file is a snapshot `Option (List Note)`; `saveNotes` swallows
  write errors, modelled by a `saveOk : Bool` parameter of the wrappers.
-/

namespace StudentNotes

/-- JavaScript/JSON values (request-body fields, persisted-file content). -/
inductive JsVal where
  | vNull
  | vBool (b : Bool)
  | vNum (n : Int)
  | vStr (s : String)
  | vArr (elems : List JsVal)
  | vObj (fields : List (String × JsVal))
deriving Repr

/-- JS truthiness of a possibly-undefined value (`undefined`, `null`, `false`,
`0` and `""` are falsy; arrays and objects are always truthy). -/
def jsTruthy : Option JsVal → Bool
  | none => false
  | some JsVal.vNull => false
  | some (JsVal.vBool b) => b
  | some (JsVal.vNum n) => n != 0
  | some (JsVal.vStr s) => s != ""
  | some (JsVal.vArr _) => true
  | some (JsVal.vObj _) => true

/-- Model of `typeof v === "string"` on a possibly-undefined value. -/
def jsIsString : Option JsVal → Bool
  | some (JsVal.vStr _) => true
  | _ => false

/-- Model of `Array.isArray(v)` on a possibly-undefined value. -/
def jsIsArray : Option JsVal → Bool
  | some (JsVal.vArr _) => true
  | _ => false

/-- The string payload of a value known to be a string (dummy `""` otherwise;
every use is guarded by `jsIsString`). -/
def jsStrVal : Option JsVal → String
  | some (JsVal.vStr s) => s
  | _ => ""

/-- Model of `receiver.startsWith(arg)` on character lists. -/
def charsStartWith : List Char → List Char → Bool
  | _, [] => true
  | [], _ :: _ => false
  | c :: cs, d :: ds => c == d && charsStartWith cs ds

/-- Substring occurrence on character lists. -/
def charsContain : List Char → List Char → Bool
  | [], sub => sub.isEmpty
  | c :: cs, sub => charsStartWith (c :: cs) sub || charsContain cs sub

/-- Model of `s.includes(sub)` : JavaScript `String.prototype.includes`. -/
def jsIncludes (s sub : String) : Bool :=
  charsContain s.toList sub.toList

/-- Model of `s.trim()` : drop leading and trailing whitespace. -/
def jsTrim (s : String) : String :=
  String.mk (((s.toList.dropWhile Char.isWhitespace).reverse.dropWhile
    Char.isWhitespace).reverse)

/-- Model of `s.toLowerCase()` : character-wise lowering. -/
def jsToLower (s : String) : String :=
  String.mk (s.toList.map Char.toLower)

/-- Decimal digit run at the front of the input, as `parseInt` reads it:
the longest prefix of digits, `NaN` (`none`) when it is empty. -/
def parseDecPrefix (cs : List Char) : Option Nat :=
  let ds := cs.takeWhile Char.isDigit
  if ds.isEmpty then none
  else some (ds.foldl (fun a c => 10 * a + (c.toNat - 48)) 0)

/-- Value of one hexadecimal digit, `none` for a non-hex-digit. -/
def hexDigitVal (c : Char) : Option Nat :=
  if c.isDigit then some (c.toNat - 48)
  else if 97 ≤ c.toNat && c.toNat ≤ 102 then some (c.toNat - 87)
  else if 65 ≤ c.toNat && c.toNat ≤ 70 then some (c.toNat - 55)
  else none

/-- Hex digit run after a `0x` prefix, as `parseInt` reads it. -/
def parseHexPrefix (cs : List Char) : Option Nat :=
  let ds := cs.takeWhile (fun c => (hexDigitVal c).isSome)
  if ds.isEmpty then none
  else some (ds.foldl (fun a c => 16 * a + (hexDigitVal c).getD 0) 0)

/-- Unsigned part of `parseInt` with no radix argument: a `0x`/`0X` prefix
selects base 16, otherwise base 10. -/
def parseUnsigned : List Char → Option Nat
  | '0' :: x :: rest =>
    if x == 'x' || x == 'X' then parseHexPrefix rest
    else parseDecPrefix ('0' :: x :: rest)
  | cs => parseDecPrefix cs

/-- Model of `parseInt(s)` : skip leading whitespace, optional sign, longest valid
digit prefix; `none` models `NaN`. -/
def parseIntJS (s : String) : Option Int :=
  match s.toList.dropWhile Char.isWhitespace with
  | '-' :: rest => (parseUnsigned rest).map (fun n => -(n : Int))
  | '+' :: rest => (parseUnsigned rest).map (fun n => (n : Int))
  | cs => (parseUnsigned cs).map (fun n => (n : Int))

/-- A stored note (`{id, title, content, tags, createdAt, updatedAt}`). -/
structure Note where
  id : Nat
  title : String
  content : String
  tags : List String
  createdAt : Nat
  updatedAt : Nat
deriving Repr, DecidableEq

/-- A request body after `express.json()` parsing and destructuring:
the three fields the handlers read, `none` = absent (`undefined`). -/
structure Body where
  title : Option JsVal
  content : Option JsVal
  tags : Option JsVal
deriving Repr

/-- The module-level mutable state: `let notes = []` and `let nextId = 1`. -/
structure ServerState where
  notes : List Note
  nextId : Nat
deriving Repr, DecidableEq

/-- The initial state of a fresh process before `loadNotes`. -/
def emptyState : ServerState := { notes := [], nextId := 1 }

/-- Model of `loadNotes` when the file parses to a well-formed array of notes:
`notes = loadedNotes; nextId = Math.max(...notes.map(n => n.id), 0) + 1`.
(The raw, unvalidated behaviour of `loadNotes` is `loadNotesRaw` below.) -/
def loadState (ns : List Note) : ServerState :=
  { notes := ns, nextId := (ns.map Note.id).foldr max 0 + 1 }

def titleMsg : String := "Title is required and must be a non-empty string"
def contentMsg : String := "Content is required and must be a non-empty string"
def tagsArrayMsg : String := "Tags must be an array of strings"
def tagsElemMsg : String := "All tags must be strings"

/-- Elements of a value known to be an array (dummy `[]` otherwise). -/
def jsArrElems : Option JsVal → List JsVal
  | some (JsVal.vArr xs) => xs
  | _ => []

/-- Model of `tags.every(tag => typeof tag === "string")`. -/
def allStrings (xs : List JsVal) : Bool :=
  xs.all (fun v => jsIsString (some v))

/-- The `validateNote` middleware: `some msg` is an early 400 response,
`none` is `next()`. -/
def validateNote (b : Body) : Option String :=
  if !jsTruthy b.title || !jsIsString b.title || jsTrim (jsStrVal b.title) == "" then
    some titleMsg
  else if !jsTruthy b.content || !jsIsString b.content || jsTrim (jsStrVal b.content) == "" then
    some contentMsg
  else if b.tags.isSome && !jsIsArray b.tags then
    some tagsArrayMsg
  else if jsTruthy b.tags && !allStrings (jsArrElems b.tags) then
    some tagsElemMsg
  else
    none

/-- HTTP response bodies produced by the handlers. -/
inductive RespBody where
  | note (n : Note)
  | notesArr (ns : List Note)
  | err (msg : String)
  | empty
deriving Repr, DecidableEq

/-- A response: status code and body. -/
abbrev Resp := Nat × RespBody

/-- The string payload of each validated tag element (`tag => tag`); after
`validateNote` every element is a string, the `""` default is unreachable. -/
def tagStrings : Option JsVal → List String
  | some (JsVal.vArr xs) =>
    xs.map (fun v => match v with | JsVal.vStr s => s | _ => "")
  | _ => []

/-- Model of `POST /notes` (validateNote middleware, then the handler):
returns the response, the new state, and whether `saveNotes` was invoked. -/
def postNotes (b : Body) (now : Nat) (st : ServerState) :
    Resp × ServerState × Bool :=
  match validateNote b with
  | some msg => ((400, RespBody.err msg), st, false)
  | none =>
    let newNote : Note :=
      { id := st.nextId
        title := jsTrim (jsStrVal b.title)
        content := jsTrim (jsStrVal b.content)
        tags := (tagStrings b.tags).map jsTrim
        createdAt := now
        updatedAt := now }
    ((201, RespBody.note newNote),
     { notes := st.notes ++ [newNote], nextId := st.nextId + 1 }, true)

/-- JS truthiness of an optional query-parameter string (`undefined` and `""`
are falsy). -/
def jsTruthyStr : Option String → Bool
  | none => false
  | some s => s != ""

/-- The tag-filter predicate of `GET /notes`:
`note.tags.some(t => t.toLowerCase().includes(tag.toLowerCase()))`. -/
def tagFilter (tag : String) (note : Note) : Bool :=
  note.tags.any (fun t => jsIncludes (jsToLower t) (jsToLower tag))

/-- The search predicate of `GET /notes`:
`note.title.toLowerCase().includes(s) || note.content.toLowerCase().includes(s)`
with `s = q.toLowerCase()`. -/
def qFilter (q : String) (note : Note) : Bool :=
  jsIncludes (jsToLower note.title) (jsToLower q) || jsIncludes (jsToLower note.content) (jsToLower q)

/-- Model of `GET /notes` with optional `tag` and `q` query parameters. -/
def listNotes (tag q : Option String) (st : ServerState) : Resp :=
  let fs1 := if jsTruthyStr tag then
      st.notes.filter (tagFilter (tag.getD "")) else st.notes
  let fs2 := if jsTruthyStr q then
      fs1.filter (qFilter (q.getD "")) else fs1
  (200, RespBody.notesArr fs2)

/-- Model of `GET /notes/:id`. -/
def getNoteById (idStr : String) (st : ServerState) : Resp :=
  match parseIntJS idStr with
  | none => (400, RespBody.err "Invalid note ID")
  | some id =>
    match st.notes.find? (fun n => (n.id : Int) == id) with
    | none => (404, RespBody.err "Note not found")
    | some n => (200, RespBody.note n)

/-- Model of `findIndex` + `notes[idx] = { ...notes[idx], ... }`: rewrite the first
note whose id matches, returning the written note and the new list. -/
def replaceNote (id : Int) (upd : Note → Note) : List Note → Option (Note × List Note)
  | [] => none
  | n :: rest =>
    if (n.id : Int) == id then some (upd n, upd n :: rest)
    else (replaceNote id upd rest).map (fun p => (p.1, n :: p.2))

/-- Model of `findIndex` + `notes.splice(idx, 1)`: drop the first note whose id
matches. -/
def removeNote (id : Int) : List Note → Option (List Note)
  | [] => none
  | n :: rest =>
    if (n.id : Int) == id then some rest
    else (removeNote id rest).map (fun l => n :: l)

/-- The field rewrite performed by the `PUT /notes/:id` handler on the found
note (spread keeps `id` and `createdAt`). -/
def putUpdate (b : Body) (now : Nat) (old : Note) : Note :=
  { old with
    title := jsTrim (jsStrVal b.title)
    content := jsTrim (jsStrVal b.content)
    tags := (tagStrings b.tags).map jsTrim
    updatedAt := now }

/-- Model of `PUT /notes/:id` (validateNote middleware, then the handler). -/
def putNote (idStr : String) (b : Body) (now : Nat) (st : ServerState) :
    Resp × ServerState × Bool :=
  match validateNote b with
  | some msg => ((400, RespBody.err msg), st, false)
  | none =>
    match parseIntJS idStr with
    | none => ((400, RespBody.err "Invalid note ID"), st, false)
    | some id =>
      match replaceNote id (putUpdate b now) st.notes with
      | none => ((404, RespBody.err "Note not found"), st, false)
      | some (updated, newNotes) =>
        ((200, RespBody.note updated),
         { notes := newNotes, nextId := st.nextId }, true)

/-- Model of `DELETE /notes/:id`. -/
def deleteNote (idStr : String) (st : ServerState) :
    Resp × ServerState × Bool :=
  match parseIntJS idStr with
  | none => ((400, RespBody.err "Invalid note ID"), st, false)
  | some id =>
    match removeNote id st.notes with
    | none => ((404, RespBody.err "Note not found"), st, false)
    | some newNotes =>
      ((204, RespBody.empty), { notes := newNotes, nextId := st.nextId }, true)

/-- Process + disk: the in-memory state and the persisted-file snapshot
(`none` = no readable file). -/
structure Sys where
  mem : ServerState
  file : Option (List Note)
deriving Repr, DecidableEq

/-- Model of `saveNotes()`: overwrite the file with the current collection; a write
failure (`saveOk = false`) is caught and logged, leaving the file as it was. -/
def doSave (saveOk : Bool) (sys : Sys) : Sys :=
  if saveOk then { sys with file := some sys.mem.notes } else sys

/-- Lift a handler result onto `Sys`: apply the memory mutation, then run
`saveNotes` when the handler invoked it. -/
def liftHandler (saveOk : Bool) (sys : Sys) : Resp × ServerState × Bool → Resp × Sys
  | (resp, st, wantSave) =>
    let sys1 : Sys := { mem := st, file := sys.file }
    (resp, if wantSave then doSave saveOk sys1 else sys1)

/-- Model of `POST /notes` at the process+disk level. -/
def runPost (b : Body) (now : Nat) (saveOk : Bool) (sys : Sys) : Resp × Sys :=
  liftHandler saveOk sys (postNotes b now sys.mem)

/-- Model of `PUT /notes/:id` at the process+disk level. -/
def runPut (idStr : String) (b : Body) (now : Nat) (saveOk : Bool) (sys : Sys) :
    Resp × Sys :=
  liftHandler saveOk sys (putNote idStr b now sys.mem)

/-- Model of `DELETE /notes/:id` at the process+disk level. -/
def runDelete (idStr : String) (saveOk : Bool) (sys : Sys) : Resp × Sys :=
  liftHandler saveOk sys (deleteNote idStr sys.mem)

/-- One mutating request (GET requests do not change the state). -/
inductive Op where
  | post (b : Body) (now : Nat)
  | put (idStr : String) (b : Body) (now : Nat)
  | del (idStr : String)

/-- The state after serving one mutating request. -/
def applyOp (st : ServerState) : Op → ServerState
  | Op.post b now => (postNotes b now st).2.1
  | Op.put idStr b now => (putNote idStr b now st).2.1
  | Op.del idStr => (deleteNote idStr st).2.1

/-- The state after serving a sequence of mutating requests. -/
def run (st : ServerState) (ops : List Op) : ServerState :=
  ops.foldl applyOp st

/-- The ids handed out by the successful POSTs of a request sequence, in
order of assignment (`id: nextId++`). -/
def createdIds : ServerState → List Op → List Nat
  | _, [] => []
  | st, op :: ops =>
    match op with
    | Op.post b _ =>
      if (validateNote b).isSome then createdIds (applyOp st op) ops
      else st.nextId :: createdIds (applyOp st op) ops
    | _ => createdIds (applyOp st op) ops

/-! ## Raw model of `loadNotes`

`loadNotes` assigns whatever `JSON.parse` produced to `notes` and only then
computes `nextId = Math.max(...notes.map(note => note.id), 0) + 1`; it never
validates the shape.  Here `notes` is an arbitrary `JsVal` and `nextId` an
`Option Int` (`none` = `NaN`). -/

/-- The raw module-level state at startup. -/
structure RawState where
  notes : JsVal
  nextId : Option Int
deriving Repr

/-- Model of `let notes = []; let nextId = 1` before `loadNotes` runs. -/
def initRaw : RawState := { notes := JsVal.vArr [], nextId := some 1 }

/-- Model of `note.id`: property access.  Throws (`error`) on `null`; yields the
field on objects and `undefined` (`ok none`) on other non-null values. -/
def getIdField : JsVal → Except Unit (Option JsVal)
  | JsVal.vNull => Except.error ()
  | JsVal.vObj fields =>
    Except.ok ((fields.find? (fun f => f.1 == "id")).map Prod.snd)
  | _ => Except.ok none

/-- Model of `notes.map(note => note.id)`: throws when `notes` is not an array
(no `.map` method) or when an element's property access throws. -/
def mapIds : JsVal → Except Unit (List (Option JsVal))
  | JsVal.vArr xs => xs.mapM getIdField
  | _ => Except.error ()

/-- JS `ToNumber` coercion (`none` = `NaN`).  String conversion covers the
empty string and signed decimal literals; `Number(...)` of singleton arrays
recurses through the element (exact for numbers and numeric strings). -/
def jsToNumber : JsVal → Option Int
  | JsVal.vNull => some 0
  | JsVal.vBool b => some (if b then 1 else 0)
  | JsVal.vNum n => some n
  | JsVal.vStr s =>
    match s.toList.dropWhile Char.isWhitespace with
    | [] => some 0
    | '-' :: rest =>
      if rest ≠ [] && rest.all Char.isDigit then
        some (-(rest.foldl (fun a c => 10 * a + (c.toNat - 48)) 0 : Nat))
      else none
    | '+' :: rest =>
      if rest ≠ [] && rest.all Char.isDigit then
        some ((rest.foldl (fun a c => 10 * a + (c.toNat - 48)) 0 : Nat) : Int)
      else none
    | cs =>
      if cs.all Char.isDigit then
        some ((cs.foldl (fun a c => 10 * a + (c.toNat - 48)) 0 : Nat) : Int)
      else none
  | JsVal.vArr [] => some 0
  | JsVal.vArr [x] => jsToNumber x
  | JsVal.vArr (_ :: _ :: _) => none
  | JsVal.vObj _ => none

/-- Model of `ToNumber` of a possibly-undefined value (`ToNumber(undefined) = NaN`). -/
def jsToNumberOpt : Option JsVal → Option Int
  | none => none
  | some v => jsToNumber v

/-- Model of `Math.max(...ids, 0)`: `NaN` as soon as one coercion is `NaN`, else the
maximum of the coerced values and `0`. -/
def jsMaxWithZero (ids : List (Option JsVal)) : Option Int :=
  (ids.mapM jsToNumberOpt).map (fun ns => ns.foldr max 0)

/-- Model of `loadNotes` on the outcome of reading + `JSON.parse` (`none` = the read
or parse threw).  `notes = loadedNotes` happens before the counter
computation, whose exception is swallowed by the surrounding `try`. -/
def loadNotesRaw (parsed : Option JsVal) (st : RawState) : RawState :=
  match parsed with
  | none => st
  | some v =>
    match mapIds v with
    | Except.error _ => { st with notes := v }
    | Except.ok ids => { notes := v, nextId := (jsMaxWithZero ids).map (· + 1) }

/-- JSON encoding of a well-formed stored note, as `saveNotes` writes it. -/
def encodeNote (n : Note) : JsVal :=
  JsVal.vObj
    [("id", JsVal.vNum n.id),
     ("title", JsVal.vStr n.title),
     ("content", JsVal.vStr n.content),
     ("tags", JsVal.vArr (n.tags.map JsVal.vStr)),
     ("createdAt", JsVal.vNum n.createdAt),
     ("updatedAt", JsVal.vNum n.updatedAt)]

/-! ## Spec-side predicates

These transcribe the claims' wording, to be compared with the
definitions above. -/

/-- Spec wording for an invalid `title`/`content` field: missing,
non-string, or whitespace-only after trimming. -/
def specFieldInvalid : Option JsVal → Bool
  | none => true
  | some (JsVal.vStr s) => jsTrim s == ""
  | some _ => true

/-- Spec wording for an invalid body: bad title, bad content, a present
`tags` that is not an array, or a `tags` array with a non-string element. -/
def specInvalidBody (b : Body) : Bool :=
  specFieldInvalid b.title || specFieldInvalid b.content ||
  (match b.tags with
   | some (JsVal.vArr xs) => !xs.all (fun v => jsIsString (some v))
   | some _ => true
   | none => false)

/-! ## Helper lemmas -/

/-- The first guard of `validateNote` tests exactly the spec's notion of an
invalid required field. -/
lemma fieldGuard_eq_spec (v : Option JsVal) :
    (!jsTruthy v || !jsIsString v || jsTrim (jsStrVal v) == "") = specFieldInvalid v := by
  rcases v with _ | v
  · rfl
  · cases v with
    | vStr s =>
      by_cases hs : s = ""
      · subst hs; decide
      · simp [jsTruthy, jsIsString, jsStrVal, specFieldInvalid, hs]
    | vNull => rfl
    | vBool b => simp [jsTruthy, jsIsString, jsStrVal, specFieldInvalid]
    | vNum n => simp [jsTruthy, jsIsString, jsStrVal, specFieldInvalid]
    | vArr xs => rfl
    | vObj fs => rfl

/-- Helper: `validateNote` rejects exactly the bodies the spec calls invalid. -/
lemma validate_isSome_eq_spec (b : Body) :
    (validateNote b).isSome = specInvalidBody b := by
  rcases b with ⟨t, c, g⟩
  unfold validateNote specInvalidBody
  rw [fieldGuard_eq_spec t, fieldGuard_eq_spec c]
  by_cases ht : specFieldInvalid t
  · simp [ht]
  · by_cases hc : specFieldInvalid c
    · simp [ht, hc]
    · simp only [ht, hc, if_false, Bool.false_or]
      rcases g with _ | v
      · simp [jsTruthy, jsIsArray, jsArrElems]
      · cases v with
        | vArr xs =>
          by_cases hall : ∀ x ∈ xs, jsIsString (some x) = true
          · have h1 : xs.all (fun v => jsIsString (some v)) = true :=
              List.all_eq_true.mpr hall
            simp [jsTruthy, jsIsArray, jsArrElems, allStrings, h1, hall]
          · have h1 : xs.all (fun v => jsIsString (some v)) = false := by
              rw [← Bool.not_eq_true, List.all_eq_true]; exact hall
            simp [jsTruthy, jsIsArray, jsArrElems, allStrings, h1, hall]
        | _ => simp [jsTruthy, jsIsArray, jsArrElems, allStrings]

/-! ## Claims -/

/-- Claim C2: every POST or PUT whose body has a missing/non-string/blank
`title`, a missing/non-string/blank `content`, a present non-array `tags`,
or a `tags` array with a non-string element gets a 400 response whose
message names the failing field (in the code's title-content-tags order);
the collection is unchanged, no save is attempted, and the persisted file
is untouched. -/
theorem claim2_validation_rejects (b : Body) (now : Nat) (st : ServerState)
    (idStr : String) (saveOk : Bool) (sys : Sys)
    (h : specInvalidBody b = true) :
    ∃ msg, validateNote b = some msg ∧
      (specFieldInvalid b.title = true → msg = titleMsg) ∧
      (specFieldInvalid b.title = false → specFieldInvalid b.content = true →
        msg = contentMsg) ∧
      (specFieldInvalid b.title = false → specFieldInvalid b.content = false →
        ∀ v, b.tags = some v → jsIsArray (some v) = false → msg = tagsArrayMsg) ∧
      (specFieldInvalid b.title = false → specFieldInvalid b.content = false →
        ∀ xs, b.tags = some (JsVal.vArr xs) → msg = tagsElemMsg) ∧
      postNotes b now st = ((400, RespBody.err msg), st, false) ∧
      putNote idStr b now st = ((400, RespBody.err msg), st, false) ∧
      (runPost b now saveOk sys).2.file = sys.file ∧
      (runPut idStr b now saveOk sys).2.file = sys.file := by
  have hsome : (validateNote b).isSome = true := by
    rw [validate_isSome_eq_spec]; exact h
  rcases hmsg : validateNote b with _ | msg
  · rw [hmsg] at hsome; simp at hsome
  · refine ⟨msg, rfl, ?_, ?_, ?_, ?_, ?_, ?_, ?_, ?_⟩
    · intro ht
      unfold validateNote at hmsg
      rw [fieldGuard_eq_spec, ht] at hmsg
      simpa using hmsg.symm
    · intro ht hc
      unfold validateNote at hmsg
      rw [fieldGuard_eq_spec, fieldGuard_eq_spec, ht, hc] at hmsg
      simpa using hmsg.symm
    · intro ht hc v hv harr
      unfold validateNote at hmsg
      rw [fieldGuard_eq_spec, fieldGuard_eq_spec, ht, hc, hv] at hmsg
      simp [harr] at hmsg
      exact hmsg.symm
    · intro ht hc xs hxs
      unfold validateNote at hmsg
      rw [fieldGuard_eq_spec, fieldGuard_eq_spec, ht, hc, hxs] at hmsg
      by_cases hall : xs.all (fun v => jsIsString (some v))
      · exfalso
        unfold specInvalidBody at h
        rw [ht, hc, hxs] at h
        simp [hall] at h
      · simp [jsIsArray, jsTruthy, jsArrElems, allStrings, hall] at hmsg
        exact hmsg.symm
    · unfold postNotes; rw [hmsg]
    · unfold putNote; rw [hmsg]
    · unfold runPost liftHandler postNotes; rw [hmsg]; rfl
    · unfold runPut liftHandler putNote; rw [hmsg]; rfl

/-- Witness for C2 at a concrete invalid body (whitespace-only title). -/
theorem claim2_witness :
    specInvalidBody
        { title := some (JsVal.vStr "  "), content := some (JsVal.vStr "c"),
          tags := none } = true ∧
      ∃ msg,
        validateNote
            { title := some (JsVal.vStr "  "), content := some (JsVal.vStr "c"),
              tags := none } = some msg ∧ True := by
  have h : specInvalidBody
      { title := some (JsVal.vStr "  "), content := some (JsVal.vStr "c"),
        tags := none } = true := by decide
  obtain ⟨msg, hmsg, -⟩ :=
    claim2_validation_rejects
      { title := some (JsVal.vStr "  "), content := some (JsVal.vStr "c"),
        tags := none } 0 emptyState "1" true ⟨emptyState, none⟩ h
  exact ⟨h, msg, hmsg, trivial⟩

/-- Claim C3: a GET/PUT/DELETE on `/notes/:id` whose path parameter does not
parse as an integer (`parseInt` yields `NaN`) answers 400, leaves the
collection and the persisted file unchanged, and attempts no save. -/
theorem claim3_non_integer_id (idStr : String) (st : ServerState) (b : Body)
    (now : Nat) (saveOk : Bool) (sys : Sys)
    (h : parseIntJS idStr = none) :
    getNoteById idStr st = (400, RespBody.err "Invalid note ID") ∧
    (putNote idStr b now st).1.1 = 400 ∧
    (putNote idStr b now st).2 = (st, false) ∧
    deleteNote idStr st = ((400, RespBody.err "Invalid note ID"), st, false) ∧
    (runPut idStr b now saveOk sys).2 = sys ∧
    (runDelete idStr saveOk sys).2 = sys := by
  refine ⟨?_, ?_, ?_, ?_, ?_, ?_⟩
  · unfold getNoteById; rw [h]
  · unfold putNote; rcases validateNote b with _ | msg
    · rw [h]
    · rfl
  · unfold putNote; rcases validateNote b with _ | msg
    · rw [h]
    · rfl
  · unfold deleteNote; rw [h]
  · unfold runPut liftHandler putNote
    rcases validateNote b with _ | msg
    · rw [h]; rfl
    · rfl
  · unfold runDelete liftHandler deleteNote; rw [h]; rfl

/-- Witness for C3 at the concrete non-numeric path parameter `"abc"`. -/
theorem claim3_witness :
    parseIntJS "abc" = none ∧
      getNoteById "abc" emptyState = (400, RespBody.err "Invalid note ID") :=
  ⟨by decide,
   (claim3_non_integer_id "abc" emptyState
     { title := none, content := none, tags := none } 0 true
     { mem := emptyState, file := none } (by decide)).1⟩

/-- A note with an empty tag list, and a one-note collection holding it. -/
def c4Note : Note :=
  { id := 1, title := "a", content := "b", tags := [], createdAt := 0, updatedAt := 0 }

def c4State : ServerState := { notes := [c4Note], nextId := 2 }

/-- Counterexample to claim C4 as stated: with the `tag` query parameter
present but equal to `""`, the handler skips the filter (JS `if (tag)` is
false on `""`), so a note with no tags at all is returned even though none
of its tags contains the parameter as a substring. -/
theorem claim4_counterexample :
    listNotes (some "") none c4State = (200, RespBody.notesArr [c4Note]) ∧
    c4State.notes.filter (tagFilter "") = [] ∧
    listNotes (some "") none c4State ≠
      (200, RespBody.notesArr (c4State.notes.filter (tagFilter ""))) := by
  refine ⟨rfl, rfl, ?_⟩
  decide

/-- Claim C4 amended: for a NON-EMPTY `tag` parameter the result is exactly
the notes, in order, with some tag case-insensitively containing it; for a
non-empty `q` parameter exactly the notes whose title or content
case-insensitively contains it; with both, the intersection (one filter
after the other); with neither, the whole collection; an empty-string
parameter is treated as if the parameter were absent. -/
theorem claim4_filtering (st : ServerState) (t s : String)
    (tag q : Option String) :
    (t ≠ "" → listNotes (some t) none st =
      (200, RespBody.notesArr (st.notes.filter (tagFilter t)))) ∧
    (s ≠ "" → listNotes none (some s) st =
      (200, RespBody.notesArr (st.notes.filter (qFilter s)))) ∧
    (t ≠ "" → s ≠ "" → listNotes (some t) (some s) st =
      (200, RespBody.notesArr
        (st.notes.filter (fun n => tagFilter t n && qFilter s n)))) ∧
    listNotes none none st = (200, RespBody.notesArr st.notes) ∧
    listNotes (some "") q st = listNotes none q st ∧
    listNotes tag (some "") st = listNotes tag none st := by
  refine ⟨?_, ?_, ?_, rfl, ?_, ?_⟩
  · intro ht; unfold listNotes; simp [jsTruthyStr, ht]
  · intro hs; unfold listNotes; simp [jsTruthyStr, hs]
  · intro ht hs; unfold listNotes
    simp only [jsTruthyStr, ht, hs, Option.getD_some, bne_iff_ne, ne_eq,
      not_false_eq_true, if_true]
    rw [List.filter_filter]
    refine congrArg _ (congrArg _ (List.filter_congr ?_))
    intro n _
    exact Bool.and_comm (qFilter s n) (tagFilter t n)
  · unfold listNotes; simp [jsTruthyStr]
  · unfold listNotes; simp [jsTruthyStr]

/-- Witness for C4 (amended) at a concrete state and parameters. -/
theorem claim4_witness :
    ("x" : String) ≠ "" ∧
      listNotes (some "x") none c4State =
        (200, RespBody.notesArr (c4State.notes.filter (tagFilter "x"))) :=
  ⟨by decide, (claim4_filtering c4State "x" "y" none none).1 (by decide)⟩

/-- Helper: `replaceNote` rewrites exactly the first note whose id matches. -/
lemma replaceNote_found (id : Int) (upd : Note → Note) (l1 l2 : List Note)
    (old : Note) (h1 : ∀ n ∈ l1, (n.id : Int) ≠ id) (h2 : (old.id : Int) = id) :
    replaceNote id upd (l1 ++ old :: l2) = some (upd old, l1 ++ upd old :: l2) := by
  induction l1 with
  | nil => simp [replaceNote, h2]
  | cons n ns ih =>
    have hn : ((n.id : Int) == id) = false := by
      simp [h1 n (List.mem_cons_self n ns)]
    simp only [List.cons_append, replaceNote, hn, Bool.false_eq_true, if_false,
      List.append_eq]
    rw [ih (fun m hm => h1 m (List.mem_cons_of_mem n hm))]
    rfl

/-- Helper: `replaceNote` misses exactly when no note has the id. -/
lemma replaceNote_missing (id : Int) (upd : Note → Note) (l : List Note)
    (h : ∀ n ∈ l, (n.id : Int) ≠ id) :
    replaceNote id upd l = none := by
  induction l with
  | nil => rfl
  | cons n ns ih =>
    have hn : ((n.id : Int) == id) = false := by
      simp [h n (List.mem_cons_self n ns)]
    simp only [replaceNote, hn, Bool.false_eq_true, if_false]
    rw [ih (fun m hm => h m (List.mem_cons_of_mem n hm))]
    rfl

/-- Helper: `removeNote` drops exactly the first note whose id matches. -/
lemma removeNote_found (id : Int) (l1 l2 : List Note) (old : Note)
    (h1 : ∀ n ∈ l1, (n.id : Int) ≠ id) (h2 : (old.id : Int) = id) :
    removeNote id (l1 ++ old :: l2) = some (l1 ++ l2) := by
  induction l1 with
  | nil => simp [removeNote, h2]
  | cons n ns ih =>
    have hn : ((n.id : Int) == id) = false := by
      simp [h1 n (List.mem_cons_self n ns)]
    simp only [List.cons_append, removeNote, hn, Bool.false_eq_true, if_false,
      List.append_eq]
    rw [ih (fun m hm => h1 m (List.mem_cons_of_mem n hm))]
    rfl

/-- Helper: `removeNote` misses exactly when no note has the id. -/
lemma removeNote_missing (id : Int) (l : List Note)
    (h : ∀ n ∈ l, (n.id : Int) ≠ id) :
    removeNote id l = none := by
  induction l with
  | nil => rfl
  | cons n ns ih =>
    have hn : ((n.id : Int) == id) = false := by
      simp [h n (List.mem_cons_self n ns)]
    simp only [removeNote, hn, Bool.false_eq_true, if_false]
    rw [ih (fun m hm => h m (List.mem_cons_of_mem n hm))]
    rfl

/-- Helper: `putNote` on a found id, as a reusable equation. -/
lemma putNote_found (idStr : String) (id : Int) (b : Body) (now : Nat)
    (st : ServerState) (l1 l2 : List Note) (old : Note)
    (hid : parseIntJS idStr = some id) (hb : validateNote b = none)
    (hsplit : st.notes = l1 ++ old :: l2)
    (hl1 : ∀ n ∈ l1, (n.id : Int) ≠ id) (hold : (old.id : Int) = id) :
    putNote idStr b now st =
      ((200, RespBody.note (putUpdate b now old)),
       { notes := l1 ++ putUpdate b now old :: l2, nextId := st.nextId },
       true) := by
  have hrepl : replaceNote id (putUpdate b now) st.notes =
      some (putUpdate b now old, l1 ++ putUpdate b now old :: l2) := by
    rw [hsplit]; exact replaceNote_found id (putUpdate b now) l1 l2 old hl1 hold
  simp only [putNote, hb, hid, hrepl]

/-- Helper: `putNote` on an absent id, as a reusable equation. -/
lemma putNote_notFound (idStr : String) (id : Int) (b : Body) (now : Nat)
    (st : ServerState)
    (hid : parseIntJS idStr = some id) (hb : validateNote b = none)
    (habsent : ∀ n ∈ st.notes, (n.id : Int) ≠ id) :
    putNote idStr b now st = ((404, RespBody.err "Note not found"), st, false) := by
  have hmiss := replaceNote_missing id (putUpdate b now) st.notes habsent
  simp only [putNote, hb, hid, hmiss]

/-- Claim C5: a valid PUT on a present id rewrites exactly that note —
title, content and tags are replaced by the trimmed payload values,
`updatedAt` becomes the current time, `id` and `createdAt` are kept, and
the notes before and after it are untouched; a PUT on an absent id answers
404 and leaves the collection unchanged with no save. -/
theorem claim5_update (idStr : String) (id : Int) (b : Body) (now : Nat)
    (st : ServerState)
    (hid : parseIntJS idStr = some id) (hb : validateNote b = none) :
    (∀ l1 old l2, st.notes = l1 ++ old :: l2 →
      (∀ n ∈ l1, (n.id : Int) ≠ id) → (old.id : Int) = id →
      putNote idStr b now st =
        ((200, RespBody.note (putUpdate b now old)),
         { notes := l1 ++ putUpdate b now old :: l2, nextId := st.nextId },
         true) ∧
      (putUpdate b now old).id = old.id ∧
      (putUpdate b now old).createdAt = old.createdAt ∧
      (putUpdate b now old).title = jsTrim (jsStrVal b.title) ∧
      (putUpdate b now old).content = jsTrim (jsStrVal b.content) ∧
      (putUpdate b now old).tags = (tagStrings b.tags).map jsTrim ∧
      (putUpdate b now old).updatedAt = now) ∧
    ((∀ n ∈ st.notes, (n.id : Int) ≠ id) →
      putNote idStr b now st = ((404, RespBody.err "Note not found"), st, false)) := by
  constructor
  · intro l1 old l2 hsplit hl1 hold
    exact ⟨putNote_found idStr id b now st l1 l2 old hid hb hsplit hl1 hold,
      rfl, rfl, rfl, rfl, rfl, rfl⟩
  · intro habsent
    exact putNote_notFound idStr id b now st hid hb habsent

/-- Witness for C5 at a concrete state: updating note 1 of a two-note
collection rewrites it and leaves note 2 alone. -/
theorem claim5_witness :
    parseIntJS "1" = some 1 ∧
      putNote "1"
          { title := some (JsVal.vStr " T "), content := some (JsVal.vStr "C"),
            tags := some (JsVal.vArr [JsVal.vStr " x "]) } 9
          { notes :=
              [{ id := 1, title := "a", content := "b", tags := ["k"],
                 createdAt := 3, updatedAt := 4 },
               { id := 2, title := "c", content := "d", tags := [],
                 createdAt := 5, updatedAt := 6 }],
            nextId := 3 } =
        ((200, RespBody.note
            { id := 1, title := "T", content := "C", tags := ["x"],
              createdAt := 3, updatedAt := 9 }),
         { notes :=
             [{ id := 1, title := "T", content := "C", tags := ["x"],
                createdAt := 3, updatedAt := 9 },
              { id := 2, title := "c", content := "d", tags := [],
                createdAt := 5, updatedAt := 6 }],
           nextId := 3 }, true) := by
  refine ⟨by decide, ?_⟩
  have h :=
    ((claim5_update "1" 1
      { title := some (JsVal.vStr " T "), content := some (JsVal.vStr "C"),
        tags := some (JsVal.vArr [JsVal.vStr " x "]) } 9
      { notes :=
          [{ id := 1, title := "a", content := "b", tags := ["k"],
             createdAt := 3, updatedAt := 4 },
           { id := 2, title := "c", content := "d", tags := [],
             createdAt := 5, updatedAt := 6 }],
        nextId := 3 } (by decide) (by decide)).1 []
      { id := 1, title := "a", content := "b", tags := ["k"],
        createdAt := 3, updatedAt := 4 }
      [{ id := 2, title := "c", content := "d", tags := [],
         createdAt := 5, updatedAt := 6 }]
      rfl (by simp) (by decide)).1
  rw [h]
  rfl

/-- Claim C9 (implicit): a valid PUT whose body omits `tags` resets the
note's tags to `[]` (the handler defaults absent `tags` to the empty
array) instead of keeping the previous tags. -/
theorem claim9_put_defaults_tags (idStr : String) (id : Int) (t c : String)
    (now : Nat) (st : ServerState) (l1 l2 : List Note) (old : Note)
    (hid : parseIntJS idStr = some id)
    (ht : jsTrim t ≠ "") (hc : jsTrim c ≠ "")
    (hsplit : st.notes = l1 ++ old :: l2)
    (hl1 : ∀ n ∈ l1, (n.id : Int) ≠ id) (hold : (old.id : Int) = id) :
    putNote idStr
        { title := some (JsVal.vStr t), content := some (JsVal.vStr c),
          tags := none } now st =
      ((200, RespBody.note
          { old with title := jsTrim t, content := jsTrim c, tags := [],
                     updatedAt := now }),
       { notes := l1 ++
           { old with title := jsTrim t, content := jsTrim c, tags := [],
                      updatedAt := now } :: l2,
         nextId := st.nextId }, true) := by
  have htne : t ≠ "" := by
    intro he; subst he; exact ht (by decide)
  have hcne : c ≠ "" := by
    intro he; subst he; exact hc (by decide)
  have hb : validateNote
      { title := some (JsVal.vStr t), content := some (JsVal.vStr c),
        tags := none } = none := by
    unfold validateNote
    simp [jsTruthy, jsIsString, jsStrVal, jsIsArray, jsArrElems, allStrings,
      htne, hcne, ht, hc]
  have h :=
    putNote_found idStr id
      { title := some (JsVal.vStr t), content := some (JsVal.vStr c),
        tags := none } now st l1 l2 old hid hb hsplit hl1 hold
  rw [h]
  rfl

/-- Witness for C9: PUT without `tags` wipes an existing non-empty tag
list. -/
theorem claim9_witness :
    putNote "1"
        { title := some (JsVal.vStr "T"), content := some (JsVal.vStr "C"),
          tags := none } 9
        { notes :=
            [{ id := 1, title := "a", content := "b", tags := ["keep", "me"],
               createdAt := 3, updatedAt := 4 }],
          nextId := 2 } =
      ((200, RespBody.note
          { id := 1, title := "T", content := "C", tags := [],
            createdAt := 3, updatedAt := 9 }),
       { notes :=
           [{ id := 1, title := "T", content := "C", tags := [],
              createdAt := 3, updatedAt := 9 }],
         nextId := 2 }, true) := by
  have h :=
    claim9_put_defaults_tags "1" 1 "T" "C" 9
      { notes :=
          [{ id := 1, title := "a", content := "b", tags := ["keep", "me"],
             createdAt := 3, updatedAt := 4 }],
        nextId := 2 } []
      [] { id := 1, title := "a", content := "b", tags := ["keep", "me"],
           createdAt := 3, updatedAt := 4 }
      (by decide) (by decide) (by decide) rfl (by simp) (by decide)
  rw [h]
  rfl

/-- Helper: `deleteNote` on a found id, as a reusable equation. -/
lemma deleteNote_found (idStr : String) (id : Int) (st : ServerState)
    (l1 l2 : List Note) (old : Note)
    (hid : parseIntJS idStr = some id) (hsplit : st.notes = l1 ++ old :: l2)
    (hl1 : ∀ n ∈ l1, (n.id : Int) ≠ id) (hold : (old.id : Int) = id) :
    deleteNote idStr st =
      ((204, RespBody.empty), { notes := l1 ++ l2, nextId := st.nextId }, true) := by
  have hrem : removeNote id st.notes = some (l1 ++ l2) := by
    rw [hsplit]; exact removeNote_found id l1 l2 old hl1 hold
  simp only [deleteNote, hid, hrem]

/-- Helper: `deleteNote` on an absent id, as a reusable equation. -/
lemma deleteNote_notFound (idStr : String) (id : Int) (st : ServerState)
    (hid : parseIntJS idStr = some id)
    (habsent : ∀ n ∈ st.notes, (n.id : Int) ≠ id) :
    deleteNote idStr st = ((404, RespBody.err "Note not found"), st, false) := by
  have hmiss := removeNote_missing id st.notes habsent
  simp only [deleteNote, hid, hmiss]

/-- Helper: `getNoteById` answers 404 when no note carries the id. -/
lemma getNoteById_notFound (idStr : String) (id : Int) (st : ServerState)
    (hid : parseIntJS idStr = some id)
    (habsent : ∀ n ∈ st.notes, (n.id : Int) ≠ id) :
    getNoteById idStr st = (404, RespBody.err "Note not found") := by
  have hfind : st.notes.find? (fun n => (n.id : Int) == id) = none := by
    rw [List.find?_eq_none]
    intro n hn
    simp [habsent n hn]
  simp only [getNoteById, hid, hfind]

/-- Every note in a `GET /notes` response comes from the collection. -/
lemma listNotes_result_mem (tag q : Option String) (st : ServerState)
    (ns : List Note)
    (h : listNotes tag q st = (200, RespBody.notesArr ns)) :
    ∀ n ∈ ns, n ∈ st.notes := by
  unfold listNotes at h
  have hns := (Prod.mk.injEq _ _ _ _).mp h
  have hns2 := hns.2
  intro n hn
  rcases htag : jsTruthyStr tag with _ | _ <;>
    rcases hq : jsTruthyStr q with _ | _ <;>
      rw [htag, hq] at hns2 <;> simp at hns2 <;> rw [← hns2] at hn <;>
        first
          | exact hn
          | exact (List.mem_filter.mp hn).1

/-- After the unique note with an id is removed, no remaining note has it. -/
lemma no_id_after_remove (id : Int) (l1 l2 : List Note) (old : Note)
    (hnodup : (((l1 ++ old :: l2).map Note.id)).Nodup)
    (hold : (old.id : Int) = id) :
    ∀ n ∈ l1 ++ l2, (n.id : Int) ≠ id := by
  rw [List.map_append, List.map_cons] at hnodup
  rw [List.nodup_middle] at hnodup
  have hnotmem := (List.nodup_cons.mp hnodup).1
  intro n hn heq
  apply hnotmem
  rw [← List.map_append]
  have : n.id = old.id := by
    have : (n.id : Int) = (old.id : Int) := by rw [heq, hold]
    exact_mod_cast this
  rw [← this]
  exact List.mem_map_of_mem Note.id hn

/-- Claim C6: deleting a present id answers 204 and removes it — a
subsequent GET by that id answers 404 and no note with that id appears in
any subsequent `GET /notes` result; deleting an absent id answers 404 and
leaves the collection unchanged with no save.  (The uniqueness hypothesis
is the collection invariant established by C1.) -/
theorem claim6_delete_then_absent (idStr idStr2 : String) (id : Int)
    (st : ServerState)
    (hid : parseIntJS idStr = some id) (hid2 : parseIntJS idStr2 = some id)
    (hnodup : (st.notes.map Note.id).Nodup) :
    (∀ l1 old l2, st.notes = l1 ++ old :: l2 →
      (∀ n ∈ l1, (n.id : Int) ≠ id) → (old.id : Int) = id →
      deleteNote idStr st =
        ((204, RespBody.empty), { notes := l1 ++ l2, nextId := st.nextId }, true) ∧
      getNoteById idStr2 { notes := l1 ++ l2, nextId := st.nextId } =
        (404, RespBody.err "Note not found") ∧
      (∀ tag q ns,
        listNotes tag q { notes := l1 ++ l2, nextId := st.nextId } =
          (200, RespBody.notesArr ns) →
        ∀ n ∈ ns, (n.id : Int) ≠ id)) ∧
    ((∀ n ∈ st.notes, (n.id : Int) ≠ id) →
      deleteNote idStr st = ((404, RespBody.err "Note not found"), st, false)) := by
  constructor
  · intro l1 old l2 hsplit hl1 hold
    have habsent : ∀ n ∈ l1 ++ l2, (n.id : Int) ≠ id := by
      rw [hsplit] at hnodup
      exact no_id_after_remove id l1 l2 old hnodup hold
    refine ⟨deleteNote_found idStr id st l1 l2 old hid hsplit hl1 hold, ?_, ?_⟩
    · exact getNoteById_notFound idStr2 id _ hid2 habsent
    · intro tag q ns hlist n hn
      exact habsent n (listNotes_result_mem tag q _ ns hlist n hn)
  · intro habsent
    exact deleteNote_notFound idStr id st hid habsent

/-- Witness for C6: deleting note 1 from a two-note collection. -/
theorem claim6_witness :
    deleteNote "1"
        { notes := [c4Note,
            { id := 2, title := "c", content := "d", tags := [],
              createdAt := 0, updatedAt := 0 }], nextId := 3 } =
      ((204, RespBody.empty),
       { notes := [{ id := 2, title := "c", content := "d", tags := [],
                     createdAt := 0, updatedAt := 0 }], nextId := 3 }, true) ∧
    getNoteById "1"
        { notes := [{ id := 2, title := "c", content := "d", tags := [],
                      createdAt := 0, updatedAt := 0 }], nextId := 3 } =
      (404, RespBody.err "Note not found") := by
  have h :=
    (claim6_delete_then_absent "1" "1" 1
      { notes := [c4Note,
          { id := 2, title := "c", content := "d", tags := [],
            createdAt := 0, updatedAt := 0 }], nextId := 3 }
      (by decide) (by decide) (by decide)).1 [] c4Note
      [{ id := 2, title := "c", content := "d", tags := [],
         createdAt := 0, updatedAt := 0 }] rfl (by simp) (by decide)
  exact ⟨h.1, h.2.1⟩

/-- Claim C7: when the handler reached `saveNotes` (a successful create,
update or delete), a failing disk write changes neither the HTTP response
nor the retained in-memory state — the response is the same 201/200/204
success answer as with a working disk, and the old file content survives. -/
theorem claim7_save_failure_invisible (b : Body) (now : Nat) (idStr : String)
    (sys : Sys) :
    (validateNote b = none →
      (runPost b now false sys).1 = (runPost b now true sys).1 ∧
      (runPost b now false sys).1.1 = 201 ∧
      (runPost b now false sys).2.mem = (runPost b now true sys).2.mem ∧
      (runPost b now false sys).2.mem = (postNotes b now sys.mem).2.1 ∧
      (runPost b now false sys).2.file = sys.file) ∧
    (∀ resp st2, putNote idStr b now sys.mem = (resp, st2, true) →
      (runPut idStr b now false sys).1 = resp ∧ resp.1 = 200 ∧
      (runPut idStr b now true sys).1 = resp ∧
      (runPut idStr b now false sys).2.mem = st2 ∧
      (runPut idStr b now true sys).2.mem = st2 ∧
      (runPut idStr b now false sys).2.file = sys.file) ∧
    (∀ resp st2, deleteNote idStr sys.mem = (resp, st2, true) →
      (runDelete idStr false sys).1 = resp ∧ resp.1 = 204 ∧
      (runDelete idStr true sys).1 = resp ∧
      (runDelete idStr false sys).2.mem = st2 ∧
      (runDelete idStr true sys).2.mem = st2 ∧
      (runDelete idStr false sys).2.file = sys.file) := by
  refine ⟨?_, ?_, ?_⟩
  · intro hb
    refine ⟨?_, ?_, ?_, ?_, ?_⟩ <;>
      simp [runPost, liftHandler, postNotes, hb, doSave]
  · intro resp st2 hput
    have hresp : resp.1 = 200 := by
      unfold putNote at hput
      split at hput
      · simp at hput
      · split at hput
        · simp at hput
        · split at hput
          · simp at hput
          · rw [← (Prod.mk.injEq _ _ _ _).mp hput |>.1]
    refine ⟨?_, hresp, ?_, ?_, ?_, ?_⟩ <;>
      simp [runPut, liftHandler, hput, doSave]
  · intro resp st2 hdel
    have hresp : resp.1 = 204 := by
      unfold deleteNote at hdel
      split at hdel
      · simp at hdel
      · split at hdel
        · simp at hdel
        · rw [← (Prod.mk.injEq _ _ _ _).mp hdel |>.1]
    refine ⟨?_, hresp, ?_, ?_, ?_, ?_⟩ <;>
      simp [runDelete, liftHandler, hdel, doSave]

/-- Witness for C7: a failed save after a concrete successful POST still
reports 201 and keeps the new note in memory and the old file on disk. -/
theorem claim7_witness :
    validateNote
        { title := some (JsVal.vStr "t"), content := some (JsVal.vStr "c"),
          tags := none } = none ∧
      (runPost
          { title := some (JsVal.vStr "t"), content := some (JsVal.vStr "c"),
            tags := none } 0 false { mem := emptyState, file := some [] }).1.1 = 201 ∧
      (runPost
          { title := some (JsVal.vStr "t"), content := some (JsVal.vStr "c"),
            tags := none } 0 false { mem := emptyState, file := some [] }).2.file =
        some [] := by
  have h :=
    (claim7_save_failure_invisible
      { title := some (JsVal.vStr "t"), content := some (JsVal.vStr "c"),
        tags := none } 0 "1" { mem := emptyState, file := some [] }).1 (by decide)
  exact ⟨by decide, h.2.1, h.2.2.2.2⟩

/-- Claim C8: after a valid POST, a GET addressing the returned id (with no
intervening mutation) returns the very note of the creation response,
equal in every field.  (The bound hypothesis is the collection invariant
established by C1; it rules out a stale note shadowing the fresh id.) -/
theorem claim8_roundtrip (b : Body) (now : Nat) (st : ServerState)
    (idStr : String)
    (hb : validateNote b = none)
    (hbound : ∀ n ∈ st.notes, n.id < st.nextId)
    (hid : parseIntJS idStr = some (st.nextId : Int)) :
    ∃ newN st2, postNotes b now st = ((201, RespBody.note newN), st2, true) ∧
      newN.id = st.nextId ∧
      getNoteById idStr st2 = (200, RespBody.note newN) := by
  refine ⟨{ id := st.nextId, title := jsTrim (jsStrVal b.title),
            content := jsTrim (jsStrVal b.content),
            tags := (tagStrings b.tags).map jsTrim,
            createdAt := now, updatedAt := now },
          { notes := st.notes ++
              [{ id := st.nextId, title := jsTrim (jsStrVal b.title),
                 content := jsTrim (jsStrVal b.content),
                 tags := (tagStrings b.tags).map jsTrim,
                 createdAt := now, updatedAt := now }],
            nextId := st.nextId + 1 }, ?_, rfl, ?_⟩
  · simp only [postNotes, hb]
  · have hold : st.notes.find? (fun n => (n.id : Int) == (st.nextId : Int)) = none := by
      rw [List.find?_eq_none]
      intro n hn
      have : n.id ≠ st.nextId := Nat.ne_of_lt (hbound n hn)
      simp [this]
    simp only [getNoteById, hid, List.find?_append, hold, Option.none_or,
      List.find?_cons, beq_self_eq_true, if_pos]

/-- Witness for C8: create into a one-note store, then GET `/notes/2`. -/
theorem claim8_witness :
    validateNote
        { title := some (JsVal.vStr "t"), content := some (JsVal.vStr "c"),
          tags := none } = none ∧
      ∃ newN st2,
        postNotes
            { title := some (JsVal.vStr "t"), content := some (JsVal.vStr "c"),
              tags := none } 5 { notes := [c4Note], nextId := 2 } =
          ((201, RespBody.note newN), st2, true) ∧
        newN.id = 2 ∧
        getNoteById "2" st2 = (200, RespBody.note newN) :=
  ⟨by decide,
   claim8_roundtrip
     { title := some (JsVal.vStr "t"), content := some (JsVal.vStr "c"),
       tags := none } 5 { notes := [c4Note], nextId := 2 } "2"
     (by decide) (by decide) (by decide)⟩

/-- The collection invariant: pairwise-distinct ids, all below the counter. -/
def GoodState (st : ServerState) : Prop :=
  (st.notes.map Note.id).Nodup ∧ ∀ n ∈ st.notes, n.id < st.nextId

lemma mem_le_foldr_max (x : Nat) (l : List Nat) (h : x ∈ l) :
    x ≤ l.foldr max 0 := by
  induction l with
  | nil => cases h
  | cons a as ih =>
    rcases List.mem_cons.mp h with h | h
    · subst h; exact Nat.le_max_left _ _
    · exact le_trans (ih h) (Nat.le_max_right _ _)

lemma good_emptyState : GoodState emptyState := by
  constructor
  · exact List.nodup_nil
  · intro n hn; cases hn

lemma good_loadState (ns : List Note) (h : (ns.map Note.id).Nodup) :
    GoodState (loadState ns) := by
  refine ⟨h, fun n hn => ?_⟩
  have := mem_le_foldr_max n.id (ns.map Note.id) (List.mem_map_of_mem Note.id hn)
  simp only [loadState]
  omega

lemma postNotes_invalid (b : Body) (now : Nat) (st : ServerState) (msg : String)
    (h : validateNote b = some msg) :
    postNotes b now st = ((400, RespBody.err msg), st, false) := by
  simp only [postNotes, h]

lemma postNotes_valid (b : Body) (now : Nat) (st : ServerState)
    (h : validateNote b = none) :
    postNotes b now st =
      ((201, RespBody.note
          { id := st.nextId, title := jsTrim (jsStrVal b.title),
            content := jsTrim (jsStrVal b.content),
            tags := (tagStrings b.tags).map jsTrim,
            createdAt := now, updatedAt := now }),
       { notes := st.notes ++
           [{ id := st.nextId, title := jsTrim (jsStrVal b.title),
              content := jsTrim (jsStrVal b.content),
              tags := (tagStrings b.tags).map jsTrim,
              createdAt := now, updatedAt := now }],
         nextId := st.nextId + 1 }, true) := by
  simp only [postNotes, h]

lemma putNote_nextId (idStr : String) (b : Body) (now : Nat) (st : ServerState) :
    (putNote idStr b now st).2.1.nextId = st.nextId := by
  unfold putNote
  split
  · rfl
  · split
    · rfl
    · split
      · rfl
      · rfl

lemma deleteNote_nextId (idStr : String) (st : ServerState) :
    (deleteNote idStr st).2.1.nextId = st.nextId := by
  unfold deleteNote
  split
  · rfl
  · split
    · rfl
    · rfl

lemma replaceNote_map_id (id : Int) (upd : Note → Note)
    (hupd : ∀ n, (upd n).id = n.id) (l : List Note) :
    ∀ u l2, replaceNote id upd l = some (u, l2) →
      l2.map Note.id = l.map Note.id := by
  induction l with
  | nil => intro u l2 h; cases h
  | cons n ns ih =>
    intro u l2 h
    unfold replaceNote at h
    by_cases hn : ((n.id : Int) == id) = true
    · rw [if_pos hn] at h
      cases h
      simp [hupd n]
    · rw [if_neg hn] at h
      rcases hrec : replaceNote id upd ns with _ | p
      · rw [hrec] at h; cases h
      · rw [hrec] at h
        cases h
        simp only [List.map_cons]
        rw [ih p.1 p.2 hrec]

lemma removeNote_sublist (id : Int) (l : List Note) :
    ∀ l2, removeNote id l = some l2 → l2.Sublist l := by
  induction l with
  | nil => intro l2 h; cases h
  | cons n ns ih =>
    intro l2 h
    unfold removeNote at h
    by_cases hn : ((n.id : Int) == id) = true
    · rw [if_pos hn] at h
      cases h
      exact List.sublist_cons_self n ns
    · rw [if_neg hn] at h
      rcases hrec : removeNote id ns with _ | l3
      · rw [hrec] at h; cases h
      · rw [hrec] at h
        cases h
        exact List.Sublist.cons₂ n (ih l3 hrec)

lemma good_applyOp (st : ServerState) (op : Op) (hst : GoodState st) :
    GoodState (applyOp st op) := by
  obtain ⟨hnodup, hbound⟩ := hst
  cases op with
  | post b now =>
    rcases hv : validateNote b with _ | msg
    · simp only [applyOp]
      rw [postNotes_valid b now st hv]
      constructor
      · simp only [List.map_append, List.map_cons, List.map_nil]
        rw [List.nodup_append]
        refine ⟨hnodup, List.nodup_singleton _, ?_⟩
        intro x hx hx2
        simp at hx2
        rcases List.mem_map.mp hx with ⟨m, hm, hxm⟩
        have := hbound m hm
        omega
      · intro n hn
        rcases List.mem_append.mp hn with hn | hn
        · have := hbound n hn; simp; omega
        · simp at hn; subst hn; simp
    · simp only [applyOp]
      rw [postNotes_invalid b now st msg hv]
      exact ⟨hnodup, hbound⟩
  | put idStr b now =>
    simp only [applyOp]
    rcases hv : validateNote b with _ | msg
    · rcases hparse : parseIntJS idStr with _ | id
      · simp only [putNote, hv, hparse]
        exact ⟨hnodup, hbound⟩
      · rcases hrepl : replaceNote id (putUpdate b now) st.notes with _ | p
        · simp only [putNote, hv, hparse, hrepl]
          exact ⟨hnodup, hbound⟩
        · obtain ⟨u, l2⟩ := p
          simp only [putNote, hv, hparse, hrepl]
          have hmap : l2.map Note.id = st.notes.map Note.id :=
            replaceNote_map_id id (putUpdate b now) (fun _ => rfl) st.notes u l2 hrepl
          constructor
          · rw [hmap]; exact hnodup
          · intro n hn
            have hmem : n.id ∈ st.notes.map Note.id := by
              rw [← hmap]; exact List.mem_map_of_mem Note.id hn
            rcases List.mem_map.mp hmem with ⟨m, hm, hmn⟩
            rw [show ({ notes := l2, nextId := st.nextId } : ServerState).nextId =
              st.nextId from rfl, ← hmn]
            exact hbound m hm
    · simp only [putNote, hv]
      exact ⟨hnodup, hbound⟩
  | del idStr =>
    simp only [applyOp]
    rcases hparse : parseIntJS idStr with _ | id
    · simp only [deleteNote, hparse]
      exact ⟨hnodup, hbound⟩
    · rcases hrem : removeNote id st.notes with _ | l2
      · simp only [deleteNote, hparse, hrem]
        exact ⟨hnodup, hbound⟩
      · simp only [deleteNote, hparse, hrem]
        have hsub := removeNote_sublist id st.notes l2 hrem
        exact ⟨List.Sublist.nodup (List.Sublist.map Note.id hsub) hnodup,
               fun n hn => hbound n (List.Sublist.mem hn hsub)⟩

lemma good_run (ops : List Op) : ∀ st, GoodState st → GoodState (run st ops) := by
  induction ops with
  | nil => intro st h; exact h
  | cons op rest ih =>
    intro st h
    exact ih (applyOp st op) (good_applyOp st op h)

lemma applyOp_nextId_ge (st : ServerState) (op : Op) :
    st.nextId ≤ (applyOp st op).nextId := by
  cases op with
  | post b now =>
    rcases hv : validateNote b with _ | msg
    · simp only [applyOp]; rw [postNotes_valid b now st hv]; simp
    · simp only [applyOp]; rw [postNotes_invalid b now st msg hv]
  | put idStr b now => simp only [applyOp]; rw [putNote_nextId]
  | del idStr => simp only [applyOp]; rw [deleteNote_nextId]

lemma createdIds_increasing (ops : List Op) :
    ∀ st, (createdIds st ops).Pairwise (· < ·) ∧
      ∀ x ∈ createdIds st ops, st.nextId ≤ x := by
  induction ops with
  | nil => intro st; simp [createdIds]
  | cons op rest ih =>
    intro st
    obtain ⟨hp, hb⟩ := ih (applyOp st op)
    cases op with
    | post b now =>
      rcases hv : validateNote b with _ | msg
      · have hnext : (applyOp st (Op.post b now)).nextId = st.nextId + 1 := by
          simp only [applyOp]; rw [postNotes_valid b now st hv]
        have hcreated : createdIds st (Op.post b now :: rest) =
            st.nextId :: createdIds (applyOp st (Op.post b now)) rest := by
          simp [createdIds, hv]
        rw [hcreated]
        constructor
        · refine List.Pairwise.cons ?_ hp
          intro y hy
          have := hb y hy
          omega
        · intro x hx
          rcases List.mem_cons.mp hx with hx | hx
          · omega
          · have := hb x hx; omega
      · have hcreated : createdIds st (Op.post b now :: rest) =
            createdIds (applyOp st (Op.post b now)) rest := by
          simp [createdIds, hv]
        have hnext : (applyOp st (Op.post b now)).nextId = st.nextId := by
          simp only [applyOp]; rw [postNotes_invalid b now st msg hv]
        rw [hcreated]
        exact ⟨hp, fun x hx => by have := hb x hx; omega⟩
    | put idStr b now =>
      have hnext : (applyOp st (Op.put idStr b now)).nextId = st.nextId := by
        simp only [applyOp]; rw [putNote_nextId]
      exact ⟨hp, fun x hx => by have := hb x hx; omega⟩
    | del idStr =>
      have hnext : (applyOp st (Op.del idStr)).nextId = st.nextId := by
        simp only [applyOp]; rw [deleteNote_nextId]
      exact ⟨hp, fun x hx => by have := hb x hx; omega⟩

/-- Claim C1: starting from the empty collection or from a load of a
saved collection (whose ids are distinct, as every saved collection's
are), any sequence of create/update/delete requests keeps the in-memory
ids pairwise distinct, and the ids handed out by successful POSTs are
strictly increasing — each is larger than every id assigned before it in
the process lifetime. -/
theorem claim1_ids_unique_and_increasing (init : ServerState) (ops : List Op)
    (hinit : init = emptyState ∨
      ∃ ns, (ns.map Note.id).Nodup ∧ init = loadState ns) :
    ((run init ops).notes.map Note.id).Nodup ∧
    (createdIds init ops).Pairwise (· < ·) := by
  have hgood : GoodState init := by
    rcases hinit with h | ⟨ns, hns, h⟩
    · subst h; exact good_emptyState
    · subst h; exact good_loadState ns hns
  exact ⟨(good_run ops init hgood).1, (createdIds_increasing ops init).1⟩

/-- Witness for C1: two creates and a delete from the empty store. -/
theorem claim1_witness :
    ((run emptyState
        [Op.post { title := some (JsVal.vStr "t"),
                   content := some (JsVal.vStr "c"), tags := none } 0,
         Op.post { title := some (JsVal.vStr "u"),
                   content := some (JsVal.vStr "d"), tags := none } 1,
         Op.del "1"]).notes.map Note.id).Nodup ∧
    (createdIds emptyState
        [Op.post { title := some (JsVal.vStr "t"),
                   content := some (JsVal.vStr "c"), tags := none } 0,
         Op.post { title := some (JsVal.vStr "u"),
                   content := some (JsVal.vStr "d"), tags := none } 1,
         Op.del "1"]).Pairwise (· < ·) :=
  claim1_ids_unique_and_increasing emptyState
    [Op.post { title := some (JsVal.vStr "t"),
               content := some (JsVal.vStr "c"), tags := none } 0,
     Op.post { title := some (JsVal.vStr "u"),
               content := some (JsVal.vStr "d"), tags := none } 1,
     Op.del "1"] (Or.inl rfl)

/-- Reading the `id` field of an encoded note. -/
lemma getIdField_encode (n : Note) :
    getIdField (encodeNote n) = Except.ok (some (JsVal.vNum n.id)) := rfl

/-- Scanning the ids of an encoded well-formed collection succeeds. -/
lemma mapIds_encode (ns : List Note) :
    mapIds (JsVal.vArr (ns.map encodeNote)) =
      Except.ok (ns.map (fun n => some (JsVal.vNum n.id))) := by
  simp only [mapIds]
  induction ns with
  | nil => rfl
  | cons n rest ih =>
    simp only [List.map_cons, List.mapM_cons, getIdField_encode, ih]
    rfl

lemma foldr_max_cast (l : List Nat) :
    ((l.map (fun x : Nat => (x : Int))).foldr max 0) = ((l.foldr max 0 : Nat) : Int) := by
  induction l with
  | nil => rfl
  | cons a as ih =>
    rw [List.map_cons, List.foldr_cons, List.foldr_cons, ih, Nat.cast_max]

/-- Helper: `Math.max(...ids, 0) + 1` on the ids of an encoded well-formed
collection is the typed `loadState` counter. -/
lemma jsMaxWithZero_encode (ns : List Note) :
    jsMaxWithZero (ns.map (fun n => some (JsVal.vNum n.id))) =
      some ((ns.map Note.id).foldr max 0 : Nat) := by
  unfold jsMaxWithZero
  have hmapM : (ns.map (fun n => some (JsVal.vNum n.id))).mapM jsToNumberOpt =
      some (ns.map (fun n => (n.id : Int))) := by
    induction ns with
    | nil => rfl
    | cons n rest ih =>
      simp only [List.map_cons, List.mapM_cons, ih]
      rfl
  rw [hmapM]
  have hcomp : ((ns.map Note.id).map (fun x : Nat => (x : Int))) =
      ns.map (fun n => (n.id : Int)) := by
    rw [List.map_map]; rfl
  have hfold : ((ns.map (fun n => (n.id : Int))).foldr max 0) =
      (((ns.map Note.id).foldr max 0 : Nat) : Int) := by
    rw [← hcomp, foldr_max_cast]
  exact congrArg some hfold

/-- An array of one object that has no `id` field. -/
def badLoadVal : JsVal := JsVal.vArr [JsVal.vObj [("foo", JsVal.vNum 1)]]

/-- Counterexample to claim C10 as stated: on a parsed array of objects
without an `id` field the id scan does NOT throw — `Math.max` over the
`undefined` ids is `NaN`, so `nextId` becomes `NaN` (modelled `none`)
instead of remaining at its initial value 1. -/
theorem claim10_counterexample :
    (loadNotesRaw (some badLoadVal) initRaw).notes = badLoadVal ∧
    (loadNotesRaw (some badLoadVal) initRaw).nextId = none ∧
    initRaw.nextId = some 1 ∧
    (none : Option Int) ≠ some 1 :=
  ⟨rfl, rfl, rfl, by decide⟩

/-- Claim C10 amended: `loadNotes` performs no shape validation — any
successfully parsed value becomes the collection before the counter is
computed.  If the id scan throws (the value is not an array, or property
access on a `null` element throws) the exception is swallowed and the
counter keeps its previous value 1; if the scan succeeds the counter
becomes `Math.max(...ids, 0) + 1`, which is `NaN` (not 1) as soon as some
id is missing or non-numeric; on an encoded well-formed collection it is
the max-plus-one of `loadState`.  Only a read or parse failure leaves the
state — hence the empty initial collection — untouched. -/
theorem claim10_load_no_validation (st : RawState) (v : JsVal) (ns : List Note) :
    loadNotesRaw none st = st ∧
    (loadNotesRaw (some v) st).notes = v ∧
    (mapIds v = Except.error () → loadNotesRaw (some v) st = { st with notes := v }) ∧
    (∀ ids, mapIds v = Except.ok ids →
      (loadNotesRaw (some v) st).nextId = (jsMaxWithZero ids).map (· + 1)) ∧
    loadNotesRaw (some (JsVal.vArr (ns.map encodeNote))) st =
      { notes := JsVal.vArr (ns.map encodeNote),
        nextId := some ((loadState ns).nextId : Nat) } := by
  refine ⟨rfl, ?_, ?_, ?_, ?_⟩
  · rcases h : mapIds v with _ | ids
    · simp only [loadNotesRaw, h]
    · simp only [loadNotesRaw, h]
  · intro h
    simp only [loadNotesRaw, h]
  · intro ids h
    simp only [loadNotesRaw, h]
  · simp only [loadNotesRaw, mapIds_encode, jsMaxWithZero_encode, Option.map_some,
      loadState]
    rfl

/-- A concrete well-formed one-note persisted collection. -/
def w10Note : Note :=
  { id := 4, title := "a", content := "b", tags := [], createdAt := 0,
    updatedAt := 0 }

/-- Witness for C10 (amended) at a concrete well-formed one-note file. -/
theorem claim10_witness :
    loadNotesRaw (some (JsVal.vArr ([w10Note].map encodeNote))) initRaw =
      { notes := JsVal.vArr ([w10Note].map encodeNote), nextId := some 5 } :=
  (claim10_load_no_validation initRaw JsVal.vNull [w10Note]).2.2.2.2

end StudentNotes
